import Mathlib

/-!
Verification development for the Webflow bulk-editor backend (`app.py`).

The embedding covers the field-data normalizer (`clean_field_data`), the
request classifier (`_make_request`), the rate limiter (`_rate_limit_delay`),
and the bulk synchronizers (`update_collection_items`,
`create_collection_items`) together with their chunking loops.  Python
dictionaries are modelled as insertion-ordered association lists, Python
JSON values as the inductive `Value`, and the network as an explicit
oracle `Nat → NetResult` giving the outcome of the k-th outbound request.
-/

/-- JSON-like dynamic values carried in an item's `fieldData`.  Numbers are
restricted to integers (the claims under verification never involve
floating point). -/
inductive Value where
  | str (s : String)
  | num (n : Int)
  | bool (b : Bool)
  | null
  | arr (elems : List Value)
  | obj (fields : List (String × Value))

/-- Left curly brace character (written via its code point). -/
def lbrace : Char := Char.ofNat 123

/-- Right curly brace character (written via its code point). -/
def rbrace : Char := Char.ofNat 125

/-- Characters stripped by Python's `str.strip()` (ASCII fragment). -/
def isPySpace (c : Char) : Bool :=
  c == ' ' || c == '\t' || c == '\n' || c == '\r' || c == Char.ofNat 11 || c == Char.ofNat 12

/-- Modelled from Python `str.strip()` on the character list. -/
def stripList (l : List Char) : List Char :=
  ((l.dropWhile isPySpace).reverse.dropWhile isPySpace).reverse

/-- Modelled from Python `str.strip()`. -/
def pyStrip (s : String) : String := String.mk (stripList s.toList)

/-- Modelled from Python `str.startswith` with a one-character argument. -/
def pyStartsWith (s : String) (c : Char) : Bool :=
  match s.toList with
  | [] => false
  | d :: _ => d == c

/-- Modelled from Python `str.endswith` with a one-character argument. -/
def pyEndsWith (s : String) (c : Char) : Bool :=
  match s.toList.getLast? with
  | some d => d == c
  | none => false

/-- JSON insignificant whitespace (as accepted by `json.loads`). -/
def isJsonWs (c : Char) : Bool :=
  c == ' ' || c == '\t' || c == '\n' || c == '\r'

/-- Skip JSON whitespace. -/
def skipWs (l : List Char) : List Char := l.dropWhile isJsonWs

/-- Numeric value of one hexadecimal digit. -/
def hexVal (c : Char) : Option Nat :=
  if c.isDigit then some (c.toNat - 48)
  else if 'a' ≤ c && c ≤ 'f' then some (c.toNat - 87)
  else if 'A' ≤ c && c ≤ 'F' then some (c.toNat - 55)
  else none

/-- Value of a digit list read in base 10. -/
def digitsToNat (ds : List Char) : Nat :=
  ds.foldl (fun a c => a * 10 + (c.toNat - 48)) 0

/-- Modelled from the JSON string scanner of `json.loads` (strict mode:
control characters are rejected); consumes characters up to the closing
quote and returns the decoded string with the remaining input. -/
def parseStrAux : List Char → List Char → Option (String × List Char)
  | [], _ => none
  | c :: cs, acc =>
    if c == '"' then some (String.mk acc.reverse, cs)
    else if c == '\\' then
      match cs with
      | [] => none
      | e :: cs2 =>
        if e == '"' then parseStrAux cs2 ('"' :: acc)
        else if e == '\\' then parseStrAux cs2 ('\\' :: acc)
        else if e == '/' then parseStrAux cs2 ('/' :: acc)
        else if e == 'n' then parseStrAux cs2 ('\n' :: acc)
        else if e == 't' then parseStrAux cs2 ('\t' :: acc)
        else if e == 'r' then parseStrAux cs2 ('\r' :: acc)
        else if e == 'b' then parseStrAux cs2 (Char.ofNat 8 :: acc)
        else if e == 'f' then parseStrAux cs2 (Char.ofNat 12 :: acc)
        else if e == 'u' then
          match cs2 with
          | h1 :: h2 :: h3 :: h4 :: cs3 =>
            match hexVal h1, hexVal h2, hexVal h3, hexVal h4 with
            | some a, some b, some c3, some d =>
              parseStrAux cs3 (Char.ofNat (((a * 16 + b) * 16 + c3) * 16 + d) :: acc)
            | _, _, _, _ => none
          | _ => none
        else none
    else if c.toNat < 32 then none
    else parseStrAux cs (c :: acc)

/-- Modelled from the JSON number scanner of `json.loads`, restricted to
integer literals (an optional minus sign followed by digits). -/
def parseNum (l : List Char) : Option (Value × List Char) :=
  match l with
  | c :: rest =>
    if c == '-' then
      let ds := rest.takeWhile Char.isDigit
      if ds.isEmpty then none
      else some (Value.num (-(Int.ofNat (digitsToNat ds))), rest.drop ds.length)
    else
      let ds := l.takeWhile Char.isDigit
      if ds.isEmpty then none
      else some (Value.num (Int.ofNat (digitsToNat ds)), l.drop ds.length)
  | [] => none

/-- Python dict insertion: an existing key keeps its position but takes the
new value, a new key is appended at the end. -/
def setKey : List (String × Value) → String → Value → List (String × Value)
  | [], k, v => [(k, v)]
  | (k0, v0) :: rest, k, v =>
    if k0 == k then (k0, v) :: rest else (k0, v0) :: setKey rest k v

/-- Parser mode: a bare value, the members of an object being read, or the
elements of an array being read. -/
inductive PMode where
  | val
  | members (acc : List (String × Value))
  | elems (acc : List Value)

/-- Modelled from the recursive-descent grammar of Python `json.loads`
(objects, arrays, strings, integers, `true`/`false`/`null`), written with
explicit fuel so that it is structurally recursive. -/
def parseRun : Nat → PMode → List Char → Option (Value × List Char)
  | 0, _, _ => none
  | fuel + 1, PMode.val, l =>
    match skipWs l with
    | [] => none
    | c :: rest =>
      if c == lbrace then
        match skipWs rest with
        | [] => none
        | d :: rest2 =>
          if d == rbrace then some (Value.obj [], rest2)
          else parseRun fuel (PMode.members []) (d :: rest2)
      else if c == '[' then
        match skipWs rest with
        | [] => none
        | d :: rest2 =>
          if d == ']' then some (Value.arr [], rest2)
          else parseRun fuel (PMode.elems []) (d :: rest2)
      else if c == '"' then
        match parseStrAux rest [] with
        | some (s, r) => some (Value.str s, r)
        | none => none
      else if c == 't' then
        match rest with
        | 'r' :: 'u' :: 'e' :: r => some (Value.bool true, r)
        | _ => none
      else if c == 'f' then
        match rest with
        | 'a' :: 'l' :: 's' :: 'e' :: r => some (Value.bool false, r)
        | _ => none
      else if c == 'n' then
        match rest with
        | 'u' :: 'l' :: 'l' :: r => some (Value.null, r)
        | _ => none
      else parseNum (c :: rest)
  | fuel + 1, PMode.members acc, l =>
    match skipWs l with
    | [] => none
    | c :: rest =>
      if c == '"' then
        match parseStrAux rest [] with
        | some (key, r1) =>
          match skipWs r1 with
          | ':' :: r2 =>
            match parseRun fuel PMode.val r2 with
            | some (v, r3) =>
              match skipWs r3 with
              | [] => none
              | e :: r4 =>
                if e == ',' then parseRun fuel (PMode.members (setKey acc key v)) r4
                else if e == rbrace then some (Value.obj (setKey acc key v), r4)
                else none
            | none => none
          | _ => none
        | none => none
      else none
  | fuel + 1, PMode.elems acc, l =>
    match parseRun fuel PMode.val l with
    | some (v, r1) =>
      match skipWs r1 with
      | [] => none
      | e :: r2 =>
        if e == ',' then parseRun fuel (PMode.elems (acc ++ [v])) r2
        else if e == ']' then some (Value.arr (acc ++ [v]), r2)
        else none
    | none => none

/-- Modelled from Python `json.loads`: a single JSON document, with
surrounding whitespace allowed and trailing garbage rejected. -/
def parseJson (s : String) : Option Value :=
  match parseRun (2 * s.toList.length + 2) PMode.val s.toList with
  | some (v, rest) => if (skipWs rest).isEmpty then some v else none
  | none => none

/-- Modelled from Python `int(str)`: surrounding whitespace and an optional
sign are accepted in front of a non-empty digit run (digit-group
underscores are not modelled). -/
def pyInt (s : String) : Option Int :=
  match (pyStrip s).toList with
  | [] => none
  | c :: cs =>
    let ds := if c == '-' || c == '+' then cs else c :: cs
    if !ds.isEmpty && ds.all Char.isDigit then
      some (if c == '-' then -(Int.ofNat (digitsToNat ds)) else Int.ofNat (digitsToNat ds))
    else none

/-- Field names whose empty values are omitted by the normalizer
(`key in ['tags', 'gallery', 'categories']` in the source). -/
def isRefField (key : String) : Bool :=
  key == "tags" || key == "gallery" || key == "categories"

/-- Field data: a Python dict from field name to value, modelled as an
insertion-ordered association list. -/
abbrev FieldData := List (String × Value)

/-- One iteration of the loop body of `clean_field_data` (app.py lines
246-283): `none` when the field is omitted, otherwise the value stored. -/
def cleanField (key : String) (v : Value) : Option Value :=
  match v with
  | Value.str s =>
    if s == "null" || s == "undefined" then none
    else if pyStartsWith s lbrace && pyEndsWith s rbrace then
      match parseJson s with
      | some parsed => some parsed
      | none => if pyStrip s == "" && isRefField key then none else some (Value.str s)
    else if pyStrip s == "" && isRefField key then none else some (Value.str s)
  | Value.null => none
  | Value.arr elems =>
    if elems.isEmpty && isRefField key then none else some (Value.arr elems)
  | _ => some v

/-- `WebflowAPI.clean_field_data` (app.py lines 242-286). -/
def clean_field_data (field_data : FieldData) : FieldData :=
  field_data.filterMap (fun kv =>
    match cleanField kv.1 kv.2 with
    | none => none
    | some v => some (kv.1, v))

/-- An upstream HTTP response as observed by the client. -/
structure HttpResponse where
  status_code : Nat
  headers : List (String × String)
  body : String

/-- Outcome of one outbound HTTP attempt: a response or one of the
transport exceptions caught in `_make_request`. -/
inductive NetResult where
  | response (r : HttpResponse)
  | timeout
  | connectionError
  | requestError (msg : String)

/-- The `{'success': ..., ...}` dictionaries returned throughout app.py. -/
structure ApiResult where
  success : Bool
  error : Option String := none
  data : Option Value := none
  details : Option Value := none
  status_code : Option Nat := none
  message : Option String := none

/-- ASCII lower-casing of one character. -/
def lowerChar (c : Char) : Char :=
  if 'A' ≤ c && c ≤ 'Z' then Char.ofNat (c.toNat + 32) else c

/-- Header lookup as done by `response.headers.get` (requests uses a
case-insensitive mapping; ASCII case folding suffices for the headers
involved). -/
def headerGet (headers : List (String × String)) (name : String) : Option String :=
  match headers.find? (fun kv => kv.1.toList.map lowerChar == name.toList.map lowerChar) with
  | some kv => some kv.2
  | none => none

/-- Status classification of `_make_request` (app.py lines 87-133),
reached once the rate-limit header was handled without an exception. -/
def classifyStatus (r : HttpResponse) : ApiResult :=
  if r.status_code == 401 then
    { success := false, error := some "Invalid API token. Please check your Webflow API token." }
  else if r.status_code == 404 then
    { success := false, error := some "Resource not found. Please verify site/collection IDs." }
  else if r.status_code == 429 then
    { success := false,
      error := some ("Rate limit exceeded. Please wait "
        ++ (headerGet r.headers "Retry-After").getD "60" ++ " seconds.") }
  else if 400 ≤ r.status_code then
    match parseJson r.body with
    | some (Value.obj fields) =>
      let error_msg :=
        match List.lookup "message" fields with
        | some (Value.str m) => m
        | _ => "HTTP " ++ toString r.status_code ++ " error"
      if (List.lookup "details" fields).isSome || (List.lookup "errors" fields).isSome then
        { success := false, error := some error_msg,
          details := some ((List.lookup "details" fields).getD
            ((List.lookup "errors" fields).getD (Value.arr []))),
          status_code := some r.status_code }
      else
        { success := false, error := some error_msg, status_code := some r.status_code }
    | _ =>
      { success := false,
        error := some ("HTTP " ++ toString r.status_code ++ " error - could not parse response") }
  else
    match parseJson r.body with
    | some payload => { success := true, data := some payload }
    | none => { success := false, error := some "Invalid JSON response from Webflow API" }

/-- Handling of a received response in `_make_request` (app.py lines
79-133): the `X-RateLimit-Remaining` header is fed to `int()` before any
status classification; a non-integer value raises `ValueError`, caught
only by the final generic handler (lines 151-154). -/
def handleResponse (r : HttpResponse) : ApiResult :=
  match headerGet r.headers "X-RateLimit-Remaining" with
  | some remaining =>
    if remaining == "" then classifyStatus r
    else
      match pyInt remaining with
      | some _ => classifyStatus r
      | none =>
        { success := false,
          error := some ("Unexpected error: invalid literal for int() with base 10: "
            ++ remaining) }
  | none => classifyStatus r

/-- `WebflowAPI._make_request` (app.py lines 43-154).  The timing side
effects (rate limiting, extra sleep) do not influence the returned
dictionary and are modelled separately by `_rate_limit_delay`; the network
outcome of the attempt is supplied explicitly. -/
def _make_request (hasToken : Bool) (method endpoint : String) (data : Option Value)
    (net : NetResult) : ApiResult :=
  if !hasToken then { success := false, error := some "API token not configured" }
  else if !(method == "GET" || method == "POST" || method == "PATCH") then
    { success := false, error := some ("Unsupported method: " ++ method) }
  else
    match net with
    | NetResult.timeout =>
      { success := false, error := some "Request timeout - Webflow API took too long to respond" }
    | NetResult.connectionError =>
      { success := false, error := some "Connection error - Unable to reach Webflow API" }
    | NetResult.requestError m =>
      { success := false, error := some ("Network error: " ++ m) }
    | NetResult.response r => handleResponse r

/-- `WebflowAPI._rate_limit_delay` (app.py lines 32-41), with time made
explicit: given the stored `last_request_time` and the current clock
value, returns the duration passed to `time.sleep` (0 when no sleep
happens) and the new stored timestamp, which is read after the sleep. -/
def _rate_limit_delay (last_request_time current_time : Rat) : Rat × Rat :=
  let time_since_last_request := current_time - last_request_time
  let min_delay : Rat := 1
  if time_since_last_request < min_delay then
    (min_delay - time_since_last_request,
     current_time + (min_delay - time_since_last_request))
  else
    (0, current_time)

/-- An inbound item: Python dict with optional `id` and `fieldData` keys
(absence of the key is `none`). -/
structure Item where
  id : Option String := none
  fieldData : Option FieldData := none

/-- One outbound bulk request recorded by the synchronizer model. -/
structure Request where
  method : String
  endpoint : String
  data : Value

/-- JSON encoding of one item as placed in a request body (`id` is
included for updates only). -/
def itemValue (withId : Bool) (it : Item) : Value :=
  if withId then
    Value.obj [("id", Value.str (it.id.getD "")), ("fieldData", Value.obj (it.fieldData.getD []))]
  else
    Value.obj [("fieldData", Value.obj (it.fieldData.getD []))]

/-- The `{'items': chunk}` request body. -/
def itemsPayload (withId : Bool) (chunk : List Item) : Value :=
  Value.obj [("items", Value.arr (chunk.map (itemValue withId)))]

/-- Validation loop of `update_collection_items` (app.py lines 177-184). -/
def validateUpdateItems : Nat → List Item → Option ApiResult
  | _, [] => none
  | i, it :: rest =>
    if it.id.isNone then
      some { success := false,
             error := some ("Item " ++ toString i ++ " missing required id field") }
    else if it.fieldData.isNone then
      some { success := false,
             error := some ("Item " ++ it.id.getD "" ++ " missing required fieldData field") }
    else validateUpdateItems (i + 1) rest

/-- Validation loop of `create_collection_items` (app.py lines 293-296). -/
def validateCreateItems : Nat → List Item → Option ApiResult
  | _, [] => none
  | i, it :: rest =>
    if it.fieldData.isNone then
      some { success := false,
             error := some ("New item " ++ toString i ++ " missing required fieldData field") }
    else validateCreateItems (i + 1) rest

/-- The slicing loop `for i in range(0, len(xs), n): xs[i:i+n]`, written
with fuel (the range is bounded by the list length) so that it is
structurally recursive. -/
def chunkLoop {α : Type} (n : Nat) : Nat → List α → List (List α)
  | 0, _ => []
  | _ + 1, [] => []
  | fuel + 1, x :: xs => (x :: xs).take n :: chunkLoop n fuel ((x :: xs).drop n)

/-- Chunks of size at most `n`, as produced by the slicing loop. -/
def chunksOf {α : Type} (n : Nat) (l : List α) : List (List α) :=
  chunkLoop n l.length l

/-- Per-chunk cleaning step of `update_collection_items` (app.py lines
197-207): items whose cleaned field data is empty are dropped. -/
def cleanUpdateChunk (chunk : List Item) : List Item :=
  chunk.filterMap (fun it =>
    let cleaned := clean_field_data (it.fieldData.getD [])
    if cleaned.isEmpty then none
    else some { id := it.id, fieldData := some cleaned })

/-- Cleaning pass of `create_collection_items` (app.py lines 298-306):
temporary ids are removed and items whose cleaned field data is empty
are dropped. -/
def cleanCreateItems (items : List Item) : List Item :=
  items.filterMap (fun it =>
    let cleaned := clean_field_data (it.fieldData.getD [])
    if cleaned.isEmpty then none
    else some { id := none, fieldData := some cleaned })

/-- Chunk loop of `update_collection_items` (app.py lines 191-234): `k`
counts the outbound requests issued so far; an all-empty chunk produces a
synthetic success result without a network call. -/
def updateLoop (hasToken : Bool) (net : Nat → NetResult) (collection_id : String) :
    List (List Item) → Nat → List ApiResult × List Request
  | [], _ => ([], [])
  | chunk :: rest, k =>
    let cleaned := cleanUpdateChunk chunk
    if cleaned.isEmpty then
      let r := updateLoop hasToken net collection_id rest k
      ({ success := true, message := some "No valid items to update in chunk" } :: r.1, r.2)
    else
      let req : Request :=
        { method := "PATCH", endpoint := "/collections/" ++ collection_id ++ "/items",
          data := itemsPayload true cleaned }
      let res := _make_request hasToken "PATCH" req.endpoint (some req.data) (net k)
      let r := updateLoop hasToken net collection_id rest (k + 1)
      (res :: r.1, req :: r.2)

/-- `WebflowAPI.update_collection_items` (app.py lines 173-240), returning
the result list together with the outbound requests actually issued. -/
def update_collection_items (hasToken : Bool) (net : Nat → NetResult)
    (collection_id : String) (items_data : List Item) : List ApiResult × List Request :=
  match validateUpdateItems 0 items_data with
  | some e => ([e], [])
  | none => updateLoop hasToken net collection_id (chunksOf 100 items_data) 0

/-- Chunk loop of `create_collection_items` (app.py lines 313-334). -/
def createLoop (hasToken : Bool) (net : Nat → NetResult) (collection_id : String) :
    List (List Item) → Nat → List ApiResult × List Request
  | [], _ => ([], [])
  | chunk :: rest, k =>
    let req : Request :=
      { method := "POST", endpoint := "/collections/" ++ collection_id ++ "/items",
        data := itemsPayload false chunk }
    let res := _make_request hasToken "POST" req.endpoint (some req.data) (net k)
    let r := createLoop hasToken net collection_id rest (k + 1)
    (res :: r.1, req :: r.2)

/-- `WebflowAPI.create_collection_items` (app.py lines 288-340), returning
the result list together with the outbound requests actually issued. -/
def create_collection_items (hasToken : Bool) (net : Nat → NetResult)
    (collection_id : String) (items_data : List Item) : List ApiResult × List Request :=
  match validateCreateItems 0 items_data with
  | some e => ([e], [])
  | none => createLoop hasToken net collection_id (chunksOf 100 (cleanCreateItems items_data)) 0

/-- Successful chunk count (app.py lines 237, 337). -/
def successful_chunks (results : List ApiResult) : Nat :=
  (results.filter (fun r => r.success)).length

/-- Successful batches as filtered by the route handlers (app.py lines
427, 481). -/
def successful_batches (results : List ApiResult) : List ApiResult :=
  results.filter (fun r => r.success)

/-- Failed batches as filtered by the route handlers (app.py lines 428,
482). -/
def failed_batches (results : List ApiResult) : List ApiResult :=
  results.filter (fun r => !r.success)

/-- Overall success as observed by a route-handler caller: no failed
batches (app.py lines 430, 484). -/
def batchCallSucceeded (results : List ApiResult) : Bool :=
  (failed_batches results).isEmpty

/-- The `X-RateLimit-Remaining` header, when present and non-empty, is a
string `int()` accepts; otherwise `_make_request` dies in the generic
exception handler before classifying the status. -/
def remainingOk (headers : List (String × String)) : Bool :=
  match headerGet headers "X-RateLimit-Remaining" with
  | none => true
  | some rem => rem == "" || (pyInt rem).isSome

theorem handleResponse_eq_classify (r : HttpResponse) (h : remainingOk r.headers = true) :
    handleResponse r = classifyStatus r := by
  unfold handleResponse
  unfold remainingOk at h
  cases hg : headerGet r.headers "X-RateLimit-Remaining" with
  | none => rfl
  | some rem =>
    rw [hg] at h
    simp only [Bool.or_eq_true, beq_iff_eq] at h
    rcases h with h | h
    · simp [h]
    · by_cases he : rem = ""
      · simp [he]
      · cases hp : pyInt rem with
        | none => rw [hp] at h; simp at h
        | some n => simp [he, hp]

theorem make_request_response_eq (method endpoint : String) (data : Option Value)
    (r : HttpResponse)
    (hm : method = "GET" ∨ method = "POST" ∨ method = "PATCH")
    (hrem : remainingOk r.headers = true) :
    _make_request true method endpoint data (NetResult.response r) = classifyStatus r := by
  have hb : (method == "GET" || method == "POST" || method == "PATCH") = true := by
    rcases hm with h | h | h <;> simp [h]
  unfold _make_request
  simp [hb]
  exact handleResponse_eq_classify r hrem

/-- Substring occurrence on strings, by scanning every start offset. -/
def strContainsSub (hay needle : String) : Bool :=
  (List.range (hay.toList.length + 1)).any (fun i =>
    (hay.toList.drop i).take needle.toList.length == needle.toList)

theorem toList_append (a b : String) : (a ++ b).toList = a.toList ++ b.toList := by
  cases a; cases b; rfl

theorem strContainsSub_decomp (p mid q : String) :
    strContainsSub (p ++ mid ++ q) mid = true := by
  unfold strContainsSub
  rw [List.any_eq_true]
  have hsplit : (p ++ mid ++ q).toList = p.toList ++ (mid.toList ++ q.toList) := by
    rw [toList_append, toList_append, List.append_assoc]
  refine ⟨p.toList.length, ?_, ?_⟩
  · rw [List.mem_range, hsplit]
    simp [List.length_append]
    omega
  · rw [hsplit, List.drop_left, List.take_left]
    exact beq_self_eq_true _

/-- C10: whenever an upstream response carries a non-empty
`X-RateLimit-Remaining` header that `int()` cannot parse, `_make_request`
returns a failure with the generic unexpected-error message, regardless
of the HTTP status (in particular even for a success status), because the
header value is converted without a guarded parse. -/
theorem C10_unguarded_remaining (method endpoint : String) (data : Option Value)
    (r : HttpResponse) (rem : String)
    (hm : method = "GET" ∨ method = "POST" ∨ method = "PATCH")
    (hr : headerGet r.headers "X-RateLimit-Remaining" = some rem)
    (hne : rem ≠ "") (hbad : pyInt rem = none) :
    _make_request true method endpoint data (NetResult.response r) =
      { success := false,
        error := some ("Unexpected error: invalid literal for int() with base 10: "
          ++ rem) } := by
  have hb : (method == "GET" || method == "POST" || method == "PATCH") = true := by
    rcases hm with h | h | h <;> simp [h]
  unfold _make_request
  simp only [hb, Bool.not_true, Bool.false_eq_true, if_false, Bool.or_self]
  unfold handleResponse
  rw [hr]
  have hne2 : (rem == "") = false := by simp [hne]
  simp [hne2, hbad]

theorem C10_unguarded_remaining_witness :
    headerGet [("X-RateLimit-Remaining", "abc")] "X-RateLimit-Remaining" = some "abc" ∧
    pyInt "abc" = none ∧
    _make_request true "GET" "/sites" none
      (NetResult.response ⟨200, [("X-RateLimit-Remaining", "abc")], "\x7b\x7d"⟩) =
      { success := false,
        error := some ("Unexpected error: invalid literal for int() with base 10: "
          ++ "abc") } :=
  ⟨rfl, rfl,
    C10_unguarded_remaining "GET" "/sites" none
      ⟨200, [("X-RateLimit-Remaining", "abc")], "\x7b\x7d"⟩ "abc"
      (Or.inl rfl) rfl (by decide) rfl⟩

/-- C6 (amended): for a response whose `X-RateLimit-Remaining` header is
absent, empty, or an integer string, the status classification is
deterministic: 429 yields a failure whose message contains the
`Retry-After` value (default "60"), and 401 yields the fixed
invalid-token failure regardless of the body. -/
theorem C6_status_classification (method endpoint : String) (data : Option Value)
    (r : HttpResponse)
    (hm : method = "GET" ∨ method = "POST" ∨ method = "PATCH")
    (hrem : remainingOk r.headers = true) :
    (r.status_code = 429 →
      (_make_request true method endpoint data (NetResult.response r)).success = false ∧
      ∃ p q, (_make_request true method endpoint data (NetResult.response r)).error =
        some (p ++ (headerGet r.headers "Retry-After").getD "60" ++ q)) ∧
    (r.status_code = 401 →
      _make_request true method endpoint data (NetResult.response r) =
        { success := false,
          error := some "Invalid API token. Please check your Webflow API token." }) := by
  rw [make_request_response_eq method endpoint data r hm hrem]
  constructor
  · intro h429
    unfold classifyStatus
    rw [h429]
    refine ⟨rfl, "Rate limit exceeded. Please wait ", " seconds.", rfl⟩
  · intro h401
    unfold classifyStatus
    rw [h401]
    rfl

theorem C6_status_classification_witness :
    ((429 : Nat) = 429) ∧
    ((_make_request true "GET" "/collections/c/items" none
        (NetResult.response ⟨429, [("Retry-After", "45")], "ignored"⟩)).success = false ∧
      ∃ p q, (_make_request true "GET" "/collections/c/items" none
        (NetResult.response ⟨429, [("Retry-After", "45")], "ignored"⟩)).error =
        some (p ++ (headerGet [("Retry-After", "45")] "Retry-After").getD "60" ++ q)) ∧
    _make_request true "GET" "/collections/c/items" none
        (NetResult.response ⟨401, [], "arbitrary body"⟩) =
      { success := false,
        error := some "Invalid API token. Please check your Webflow API token." } :=
  ⟨rfl,
    (C6_status_classification "GET" "/collections/c/items" none
      ⟨429, [("Retry-After", "45")], "ignored"⟩ (Or.inl rfl) rfl).1 rfl,
    (C6_status_classification "GET" "/collections/c/items" none
      ⟨401, [], "arbitrary body"⟩ (Or.inl rfl) rfl).2 rfl⟩

/-- C6 counterexample: a 429 response with `Retry-After: 45` whose
`X-RateLimit-Remaining` header is the non-integer "abc" produces the
generic unexpected-error message, which does not contain "45" — so the
claim does not hold for every upstream response. -/
theorem C6_counterexample :
    (_make_request true "GET" "/x" none
      (NetResult.response
        ⟨429, [("Retry-After", "45"), ("X-RateLimit-Remaining", "abc")], ""⟩)).error =
      some "Unexpected error: invalid literal for int() with base 10: abc" ∧
    ¬ ∃ p q : String,
        "Unexpected error: invalid literal for int() with base 10: abc" =
          p ++ "45" ++ q := by
  refine ⟨rfl, ?_⟩
  rintro ⟨p, q, h⟩
  have h2 := strContainsSub_decomp p "45" q
  rw [← h] at h2
  exact absurd h2 (by decide)

/-- C7 (amended): for a response whose `X-RateLimit-Remaining` header is
absent, empty, or an integer string, a status below 400 is handled by
parsing the body as the success payload; a body that is not valid JSON
yields exactly the invalid-JSON failure. -/
theorem C7_success_parsing (method endpoint : String) (data : Option Value)
    (r : HttpResponse)
    (hm : method = "GET" ∨ method = "POST" ∨ method = "PATCH")
    (hrem : remainingOk r.headers = true)
    (hlt : r.status_code < 400) :
    (∀ j, parseJson r.body = some j →
      _make_request true method endpoint data (NetResult.response r) =
        { success := true, data := some j }) ∧
    (parseJson r.body = none →
      _make_request true method endpoint data (NetResult.response r) =
        { success := false, error := some "Invalid JSON response from Webflow API" }) := by
  rw [make_request_response_eq method endpoint data r hm hrem]
  have h401 : r.status_code ≠ 401 := by omega
  have h404 : r.status_code ≠ 404 := by omega
  have h429 : r.status_code ≠ 429 := by omega
  have h400 : ¬ (400 ≤ r.status_code) := by omega
  constructor
  · intro j hj
    simp [classifyStatus, h401, h404, h429, h400, hj]
  · intro hj
    simp [classifyStatus, h401, h404, h429, h400, hj]

theorem C7_success_parsing_witness :
    parseJson "\x7b\"items\": []\x7d" = some (Value.obj [("items", Value.arr [])]) ∧
    _make_request true "GET" "/collections/c/items" none
        (NetResult.response ⟨200, [("X-RateLimit-Remaining", "50")], "\x7b\"items\": []\x7d"⟩) =
      { success := true, data := some (Value.obj [("items", Value.arr [])]) } :=
  ⟨rfl,
    (C7_success_parsing "GET" "/collections/c/items" none
      ⟨200, [("X-RateLimit-Remaining", "50")], "\x7b\"items\": []\x7d"⟩
      (Or.inl rfl) rfl (by decide)).1
      (Value.obj [("items", Value.arr [])]) rfl⟩

/-- C7 counterexample: a 200 response with a syntactically valid JSON body
but a non-integer `X-RateLimit-Remaining` header is not returned as a
success payload — the unguarded `int()` turns it into the generic
unexpected-error failure — so the claim does not hold for every upstream
response with status below 400. -/
theorem C7_counterexample :
    parseJson "\x7b\x7d" = some (Value.obj []) ∧
    (200 : Nat) < 400 ∧
    (_make_request true "GET" "/x" none
      (NetResult.response ⟨200, [("X-RateLimit-Remaining", "xyz")], "\x7b\x7d"⟩)).success
      = false ∧
    (_make_request true "GET" "/x" none
      (NetResult.response ⟨200, [("X-RateLimit-Remaining", "xyz")], "\x7b\x7d"⟩)).error =
      some "Unexpected error: invalid literal for int() with base 10: xyz" :=
  ⟨rfl, by omega, rfl, rfl⟩

/-- C8: the rate limiter sleeps for exactly the remaining difference when
the elapsed time since the stored timestamp is below the minimum spacing
of 1 time-unit, adds no delay otherwise, always stores the post-wait
clock value, and consequently the stored timestamps of two consecutive
calls are never less than 1 time-unit apart. -/
theorem C8_rate_limiter (last now : Rat) :
    (now - last < 1 → 1 - (now - last) ≤ (_rate_limit_delay last now).1) ∧
    (1 ≤ now - last → (_rate_limit_delay last now).1 = 0) ∧
    (_rate_limit_delay last now).2 = now + (_rate_limit_delay last now).1 ∧
    last + 1 ≤ (_rate_limit_delay last now).2 := by
  unfold _rate_limit_delay
  by_cases h : now - last < 1
  · simp only [if_pos h]
    refine ⟨fun _ => le_rfl, fun h2 => absurd h (by linarith), by trivial, by linarith⟩
  · simp only [if_neg h]
    push_neg at h
    exact ⟨fun h2 => absurd h2 (by linarith), fun _ => by trivial, by ring, by linarith⟩

theorem C8_rate_limiter_witness :
    ((0 : Rat) - 0 < 1) ∧ 1 - ((0 : Rat) - 0) ≤ (_rate_limit_delay 0 0).1 ∧
    ((1 : Rat) ≤ 1 - 0) ∧ (_rate_limit_delay 0 1).1 = 0 ∧
    (0 : Rat) + 1 ≤ (_rate_limit_delay 0 0).2 := by
  have h1 := C8_rate_limiter 0 0
  have h2 := C8_rate_limiter 0 1
  exact ⟨by simp, h1.1 (by simp), by simp, h2.2.1 (by simp), h1.2.2.2⟩

theorem mem_dropWhile_of_not {α : Type} (p : α → Bool) (l : List α) (c : α)
    (hc : c ∈ l) (hp : p c = false) : c ∈ l.dropWhile p := by
  induction l with
  | nil => cases hc
  | cons x xs ih =>
    rw [List.dropWhile_cons]
    by_cases hx : p x = true
    · rcases List.mem_cons.mp hc with h | h
      · rw [h] at hp; rw [hp] at hx; cases hx
      · simp [hx]; exact ih h
    · simp [hx]
      exact List.mem_cons.mp hc

theorem stripList_eq_nil (l : List Char) (h : stripList l = []) :
    ∀ c ∈ l, isPySpace c = true := by
  intro c hc
  by_contra hw
  have hw2 : isPySpace c = false := by revert hw; cases isPySpace c <;> simp
  have h1 : c ∈ l.dropWhile isPySpace := mem_dropWhile_of_not _ _ _ hc hw2
  unfold stripList at h
  have h2 : (l.dropWhile isPySpace).reverse.dropWhile isPySpace = [] := by
    have h3 := congrArg List.reverse h
    simpa using h3
  rw [List.dropWhile_eq_nil_iff] at h2
  have h4 := h2 c (List.mem_reverse.mpr h1)
  rw [hw2] at h4
  cases h4

theorem stripString_eq_nil (s : String) (h : pyStrip s = "") :
    ∀ c ∈ s.toList, isPySpace c = true := by
  apply stripList_eq_nil
  have h2 := congrArg String.data h
  exact h2

theorem pyStrip_ne_empty_of_head (s : String) (c : Char) (h : pyStartsWith s c = true)
    (hc : isPySpace c = false) : (pyStrip s == "") = false := by
  rw [beq_eq_false_iff_ne]
  intro he
  unfold pyStartsWith at h
  cases hl : s.toList with
  | nil => rw [hl] at h; cases h
  | cons d t =>
    rw [hl] at h
    have hd : d = c := by simpa using h
    have h2 := stripString_eq_nil s he d (by rw [hl]; exact List.mem_cons_self _ _)
    rw [hd, hc] at h2
    cases h2

theorem lookup_clean_of_not_mem (fd : FieldData) (k : String)
    (h : k ∉ fd.map Prod.fst) :
    List.lookup k (clean_field_data fd) = none := by
  induction fd with
  | nil => rfl
  | cons kv tl ih =>
    obtain ⟨k0, v0⟩ := kv
    simp only [List.map_cons, List.mem_cons] at h
    push_neg at h
    obtain ⟨hne, htl⟩ := h
    cases hc : cleanField k0 v0 with
    | none =>
      simp only [clean_field_data, List.filterMap_cons, hc]
      exact ih htl
    | some w =>
      simp only [clean_field_data, List.filterMap_cons, hc]
      have hb : (k == k0) = false := by simpa using hne
      simp only [List.lookup, hb]
      exact ih htl

theorem lookup_clean_mem (fd : FieldData) (k : String) (v : Value)
    (hnd : (fd.map Prod.fst).Nodup) (hmem : (k, v) ∈ fd) :
    List.lookup k (clean_field_data fd) = cleanField k v := by
  induction fd with
  | nil => cases hmem
  | cons kv tl ih =>
    obtain ⟨k0, v0⟩ := kv
    simp only [List.map_cons, List.nodup_cons] at hnd
    obtain ⟨hk0, hndtl⟩ := hnd
    rcases List.mem_cons.mp hmem with h | h
    · have hk : k = k0 := congrArg Prod.fst h
      have hv : v = v0 := congrArg Prod.snd h
      subst hk
      subst hv
      cases hc : cleanField k v with
      | some w =>
        simp only [clean_field_data, List.filterMap_cons, hc]
        simp [List.lookup]
      | none =>
        simp only [clean_field_data, List.filterMap_cons, hc]
        exact lookup_clean_of_not_mem tl k hk0
    · have hkin : k ∈ tl.map Prod.fst := List.mem_map.mpr ⟨(k, v), h, rfl⟩
      have hne : (k == k0) = false := by
        rw [beq_eq_false_iff_ne]
        intro he
        rw [he] at hkin
        exact hk0 hkin
      cases hc : cleanField k0 v0 with
      | none =>
        simp only [clean_field_data, List.filterMap_cons, hc]
        exact ih hndtl h
      | some w =>
        simp only [clean_field_data, List.filterMap_cons, hc, List.lookup, hne]
        exact ih hndtl h

/-- C4: for any key of the input mapping, a value equal to the string
"null", the string "undefined", or the null marker is omitted from the
normalizer's output; an empty-after-strip string or empty sequence under
a reference-field key is omitted; an empty string or empty sequence under
a non-reference key is kept unchanged. -/
theorem C4_normalizer_omissions (fd : FieldData) (k : String) (v : Value)
    (hnd : (fd.map Prod.fst).Nodup) (hmem : (k, v) ∈ fd) :
    ((v = Value.str "null" ∨ v = Value.str "undefined" ∨ v = Value.null) →
      List.lookup k (clean_field_data fd) = none) ∧
    (isRefField k = true →
      ((∃ s, v = Value.str s ∧ pyStrip s = "") ∨ v = Value.arr []) →
      List.lookup k (clean_field_data fd) = none) ∧
    (isRefField k = false → (v = Value.str "" ∨ v = Value.arr []) →
      List.lookup k (clean_field_data fd) = some v) := by
  rw [lookup_clean_mem fd k v hnd hmem]
  refine ⟨?_, ?_, ?_⟩
  · rintro (rfl | rfl | rfl) <;> rfl
  · rintro href (⟨s, rfl, hs⟩ | rfl)
    · have hne1 : s ≠ "null" := by
        intro he; rw [he] at hs; exact absurd hs (by decide)
      have hne2 : s ≠ "undefined" := by
        intro he; rw [he] at hs; exact absurd hs (by decide)
      have hsw : pyStartsWith s lbrace = false := by
        cases hb : pyStartsWith s lbrace
        · rfl
        · have h2 := pyStrip_ne_empty_of_head s lbrace hb (by decide)
          rw [hs] at h2
          simp at h2
      simp [cleanField, hne1, hne2, hsw, hs, href]
    · simp [cleanField, href]
  · rintro href (rfl | rfl)
    · have hsw : pyStartsWith "" lbrace = false := rfl
      have hps : (pyStrip "" == "") = true := rfl
      simp [cleanField, hsw, hps, href]
    · simp [cleanField, href]

theorem C4_normalizer_omissions_witness :
    List.lookup "a" (clean_field_data [("a", Value.str "null")]) = none ∧
    List.lookup "tags" (clean_field_data [("tags", Value.str " ")]) = none ∧
    List.lookup "x" (clean_field_data [("x", Value.str "")]) = some (Value.str "") :=
  ⟨(C4_normalizer_omissions [("a", Value.str "null")] "a" (Value.str "null")
      (by decide) (List.mem_cons_self _ _)).1 (Or.inl rfl),
   (C4_normalizer_omissions [("tags", Value.str " ")] "tags" (Value.str " ")
      (by decide) (List.mem_cons_self _ _)).2.1 rfl (Or.inl ⟨" ", rfl, by decide⟩),
   (C4_normalizer_omissions [("x", Value.str "")] "x" (Value.str "")
      (by decide) (List.mem_cons_self _ _)).2.2 rfl (Or.inl rfl)⟩

/-- C5: the normalizer is a total function, and for a string value shaped
like a JSON object (starts with a left brace and ends with a right
brace): a successful parse replaces the value with the parsed structure,
a failed parse keeps the original string under its key. -/
theorem C5_json_strings (fd : FieldData) (k : String) (s : String)
    (hnd : (fd.map Prod.fst).Nodup) (hmem : (k, Value.str s) ∈ fd)
    (h1 : pyStartsWith s lbrace = true) (h2 : pyEndsWith s rbrace = true) :
    (∀ v, parseJson s = some v → List.lookup k (clean_field_data fd) = some v) ∧
    (parseJson s = none → List.lookup k (clean_field_data fd) = some (Value.str s)) := by
  rw [lookup_clean_mem fd k (Value.str s) hnd hmem]
  have hne1 : s ≠ "null" := by
    intro he; rw [he] at h1; exact absurd h1 (by decide)
  have hne2 : s ≠ "undefined" := by
    intro he; rw [he] at h1; exact absurd h1 (by decide)
  have h3 : (pyStrip s == "") = false := pyStrip_ne_empty_of_head s lbrace h1 (by decide)
  constructor
  · intro v hv
    simp [cleanField, hne1, hne2, h1, h2, hv]
  · intro hv
    simp [cleanField, hne1, hne2, h1, h2, hv, h3]

theorem C5_json_strings_witness :
    parseJson "\x7b\"url\": \"x\"\x7d" = some (Value.obj [("url", Value.str "x")]) ∧
    List.lookup "img" (clean_field_data [("img", Value.str "\x7b\"url\": \"x\"\x7d")]) =
      some (Value.obj [("url", Value.str "x")]) ∧
    parseJson "\x7bnope\x7d" = none ∧
    List.lookup "img" (clean_field_data [("img", Value.str "\x7bnope\x7d")]) =
      some (Value.str "\x7bnope\x7d") :=
  ⟨rfl,
   (C5_json_strings [("img", Value.str "\x7b\"url\": \"x\"\x7d")] "img" "\x7b\"url\": \"x\"\x7d"
      (by decide) (List.mem_cons_self _ _) rfl rfl).1 (Value.obj [("url", Value.str "x")]) rfl,
   rfl,
   (C5_json_strings [("img", Value.str "\x7bnope\x7d")] "img" "\x7bnope\x7d"
      (by decide) (List.mem_cons_self _ _) rfl rfl).2 rfl⟩

theorem chunkLoop_flatten {α : Type} (fuel : Nat) (l : List α) (h : l.length ≤ fuel) :
    (chunkLoop 100 fuel l).flatten = l := by
  induction fuel generalizing l with
  | zero =>
    have hl : l = [] := List.length_eq_zero.mp (Nat.le_zero.mp h)
    subst hl
    rfl
  | succ fuel ih =>
    cases l with
    | nil => rfl
    | cons x xs =>
      show ((x :: xs).take 100 :: chunkLoop 100 fuel ((x :: xs).drop 100)).flatten = x :: xs
      rw [List.flatten_cons, ih ((x :: xs).drop 100) (by rw [List.length_drop]; simp at h ⊢; omega)]
      exact List.take_append_drop 100 (x :: xs)

theorem chunkLoop_length {α : Type} (fuel : Nat) (l : List α) (h : l.length ≤ fuel) :
    (chunkLoop 100 fuel l).length = (l.length + 99) / 100 := by
  induction fuel generalizing l with
  | zero =>
    have hl : l = [] := List.length_eq_zero.mp (Nat.le_zero.mp h)
    subst hl
    simp [chunkLoop]
  | succ fuel ih =>
    cases l with
    | nil => simp [chunkLoop]
    | cons x xs =>
      show ((x :: xs).take 100 :: chunkLoop 100 fuel ((x :: xs).drop 100)).length = _
      rw [List.length_cons, ih ((x :: xs).drop 100) (by rw [List.length_drop]; simp at h ⊢; omega)]
      rw [List.length_drop]
      have hpos : 0 < (x :: xs).length := by simp
      omega

theorem chunkLoop_size_le {α : Type} (n fuel : Nat) (l : List α) (c : List α)
    (hc : c ∈ chunkLoop n fuel l) : c.length ≤ n := by
  induction fuel generalizing l with
  | zero => cases hc
  | succ fuel ih =>
    cases l with
    | nil => cases hc
    | cons x xs =>
      rcases List.mem_cons.mp hc with h | h
      · rw [h, List.length_take]
        exact min_le_left _ _
      · exact ih _ h

theorem chunkLoop_getElem {α : Type} (fuel : Nat) (l : List α) (k : Nat)
    (h : l.length ≤ fuel) (hk : 100 * k < l.length) :
    (chunkLoop 100 fuel l)[k]? = some ((l.drop (100 * k)).take 100) := by
  induction fuel generalizing l k with
  | zero => exact absurd hk (by omega)
  | succ fuel ih =>
    cases l with
    | nil => simp at hk
    | cons x xs =>
      cases k with
      | zero =>
        show ((x :: xs).take 100 :: chunkLoop 100 fuel ((x :: xs).drop 100))[0]? = _
        simp
      | succ k =>
        show ((x :: xs).take 100 :: chunkLoop 100 fuel ((x :: xs).drop 100))[k + 1]? = _
        rw [List.getElem?_cons_succ]
        rw [ih ((x :: xs).drop 100) k (by rw [List.length_drop]; simp at h ⊢; omega)
          (by rw [List.length_drop]; simp at hk ⊢; omega)]
        rw [List.drop_drop]
        have harith : 100 + 100 * k = 100 * (k + 1) := by ring
        rw [harith]

theorem chunksOf_flatten {α : Type} (l : List α) : (chunksOf 100 l).flatten = l :=
  chunkLoop_flatten l.length l le_rfl

theorem chunksOf_length {α : Type} (l : List α) :
    (chunksOf 100 l).length = (l.length + 99) / 100 :=
  chunkLoop_length l.length l le_rfl

theorem chunksOf_size_le {α : Type} (l : List α) (c : List α)
    (hc : c ∈ chunksOf 100 l) : c.length ≤ 100 :=
  chunkLoop_size_le 100 l.length l c hc

theorem chunksOf_getElem {α : Type} (l : List α) (k : Nat) (hk : 100 * k < l.length) :
    (chunksOf 100 l)[k]? = some ((l.drop (100 * k)).take 100) :=
  chunkLoop_getElem l.length l k le_rfl hk

theorem length_filter_add {α : Type} (p : α → Bool) (l : List α) :
    (l.filter p).length + (l.filter (fun a => !p a)).length = l.length := by
  induction l with
  | nil => rfl
  | cons x xs ih =>
    cases hx : p x with
    | true => simp [List.filter_cons, hx]; omega
    | false => simp [List.filter_cons, hx]; omega

/-- Number of chunks before position `j` that issue a network request
(those whose cleaned item list is non-empty). -/
def dispatchedBefore (chunks : List (List Item)) (j : Nat) : Nat :=
  ((chunks.take j).filter (fun c => !(cleanUpdateChunk c).isEmpty)).length

theorem dispatchedBefore_zero (chunks : List (List Item)) :
    dispatchedBefore chunks 0 = 0 := rfl

theorem dispatchedBefore_cons (c : List Item) (rest : List (List Item)) (j : Nat) :
    dispatchedBefore (c :: rest) (j + 1) =
      (if (cleanUpdateChunk c).isEmpty then 0 else 1) + dispatchedBefore rest j := by
  unfold dispatchedBefore
  rw [List.take_succ_cons, List.filter_cons]
  cases hc : (cleanUpdateChunk c).isEmpty <;> simp [hc] <;> omega

theorem updateLoop_fst_length (hasToken : Bool) (net : Nat → NetResult) (cid : String)
    (chunks : List (List Item)) (k : Nat) :
    ((updateLoop hasToken net cid chunks k).1).length = chunks.length := by
  induction chunks generalizing k with
  | nil => rfl
  | cons c rest ih =>
    cases hc : (cleanUpdateChunk c).isEmpty <;> simp [updateLoop, hc, ih]

theorem updateLoop_fst_getElem (hasToken : Bool) (net : Nat → NetResult) (cid : String)
    (chunks : List (List Item)) (k j : Nat) :
    ((updateLoop hasToken net cid chunks k).1)[j]? =
      (chunks[j]?).map (fun chunk =>
        if (cleanUpdateChunk chunk).isEmpty then
          { success := true, message := some "No valid items to update in chunk" }
        else
          _make_request hasToken "PATCH" ("/collections/" ++ cid ++ "/items")
            (some (itemsPayload true (cleanUpdateChunk chunk)))
            (net (k + dispatchedBefore chunks j))) := by
  induction chunks generalizing k j with
  | nil => simp [updateLoop]
  | cons c rest ih =>
    cases j with
    | zero =>
      cases hc : (cleanUpdateChunk c).isEmpty <;>
        simp [updateLoop, hc, dispatchedBefore_zero]
    | succ j =>
      cases hc : (cleanUpdateChunk c).isEmpty
      · have hstep :
            ((updateLoop hasToken net cid (c :: rest) k).1)[j + 1]? =
              ((updateLoop hasToken net cid rest (k + 1)).1)[j]? := by
          simp [updateLoop, hc]
        have hd : dispatchedBefore (c :: rest) (j + 1) = 1 + dispatchedBefore rest j := by
          rw [dispatchedBefore_cons, hc]
          simp
        have harith : k + 1 + dispatchedBefore rest j =
            k + (1 + dispatchedBefore rest j) := by omega
        rw [hstep, ih (k + 1) j, List.getElem?_cons_succ, hd, harith]
      · have hstep :
            ((updateLoop hasToken net cid (c :: rest) k).1)[j + 1]? =
              ((updateLoop hasToken net cid rest k).1)[j]? := by
          simp [updateLoop, hc]
        have hd : dispatchedBefore (c :: rest) (j + 1) = dispatchedBefore rest j := by
          rw [dispatchedBefore_cons, hc]
          simp
        rw [hstep, ih k j, List.getElem?_cons_succ, hd]

theorem updateLoop_snd (hasToken : Bool) (net : Nat → NetResult) (cid : String)
    (chunks : List (List Item)) (k : Nat) :
    (updateLoop hasToken net cid chunks k).2 =
      ((chunks.map cleanUpdateChunk).filter (fun c => !c.isEmpty)).map
        (fun c => { method := "PATCH", endpoint := "/collections/" ++ cid ++ "/items",
                    data := itemsPayload true c }) := by
  induction chunks generalizing k with
  | nil => rfl
  | cons c rest ih =>
    cases hc : (cleanUpdateChunk c).isEmpty <;>
      simp [updateLoop, hc, List.filter_cons, ih]

theorem createLoop_fst_length (hasToken : Bool) (net : Nat → NetResult) (cid : String)
    (chunks : List (List Item)) (k : Nat) :
    ((createLoop hasToken net cid chunks k).1).length = chunks.length := by
  induction chunks generalizing k with
  | nil => rfl
  | cons c rest ih => simp [createLoop, ih]

theorem createLoop_fst_getElem (hasToken : Bool) (net : Nat → NetResult) (cid : String)
    (chunks : List (List Item)) (k j : Nat) :
    ((createLoop hasToken net cid chunks k).1)[j]? =
      (chunks[j]?).map (fun chunk =>
        _make_request hasToken "POST" ("/collections/" ++ cid ++ "/items")
          (some (itemsPayload false chunk)) (net (k + j))) := by
  induction chunks generalizing k j with
  | nil => simp [createLoop]
  | cons c rest ih =>
    cases j with
    | zero => simp [createLoop]
    | succ j =>
      have hstep :
          ((createLoop hasToken net cid (c :: rest) k).1)[j + 1]? =
            ((createLoop hasToken net cid rest (k + 1)).1)[j]? := by
        simp [createLoop]
      have harith : k + 1 + j = k + (j + 1) := by omega
      rw [hstep, ih (k + 1) j, List.getElem?_cons_succ, harith]

theorem createLoop_snd (hasToken : Bool) (net : Nat → NetResult) (cid : String)
    (chunks : List (List Item)) (k : Nat) :
    (createLoop hasToken net cid chunks k).2 =
      chunks.map (fun c => { method := "POST",
                             endpoint := "/collections/" ++ cid ++ "/items",
                             data := itemsPayload false c }) := by
  induction chunks generalizing k with
  | nil => rfl
  | cons c rest ih => simp [createLoop, ih]

theorem isNone_eq_false_of_isSome {α : Type} (o : Option α) (h : o.isSome = true) :
    o.isNone = false := by
  cases o
  · cases h
  · rfl

theorem validateUpdate_some_success (items : List Item) (i : Nat) (e : ApiResult)
    (h : validateUpdateItems i items = some e) : e.success = false := by
  induction items generalizing i with
  | nil => cases h
  | cons it rest ih =>
    unfold validateUpdateItems at h
    by_cases h1 : it.id.isNone = true
    · rw [if_pos h1] at h
      have he := Option.some.inj h
      rw [← he]
    · rw [if_neg h1] at h
      by_cases h2 : it.fieldData.isNone = true
      · rw [if_pos h2] at h
        have he := Option.some.inj h
        rw [← he]
      · rw [if_neg h2] at h
        exact ih (i + 1) h

theorem validateUpdate_first_id (items : List Item) (i j : Nat) (it : Item)
    (hj : items[j]? = some it)
    (hprev : ∀ m, m < j → ∀ it2, items[m]? = some it2 →
      it2.id.isSome = true ∧ it2.fieldData.isSome = true)
    (hid : it.id.isNone = true) :
    validateUpdateItems i items =
      some { success := false,
             error := some ("Item " ++ toString (i + j) ++ " missing required id field") } := by
  induction items generalizing i j with
  | nil => simp at hj
  | cons x rest ih =>
    cases j with
    | zero =>
      rw [List.getElem?_cons_zero] at hj
      have hx := Option.some.inj hj
      subst hx
      unfold validateUpdateItems
      rw [if_pos hid, Nat.add_zero]
    | succ j =>
      have hx := hprev 0 (by omega) x (by rw [List.getElem?_cons_zero])
      have hx1 : x.id.isNone = false := isNone_eq_false_of_isSome _ hx.1
      have hx2 : x.fieldData.isNone = false := isNone_eq_false_of_isSome _ hx.2
      unfold validateUpdateItems
      rw [if_neg (by rw [hx1]; exact Bool.false_ne_true), if_neg (by rw [hx2]; exact Bool.false_ne_true)]
      have hprev2 : ∀ m, m < j → ∀ it2, rest[m]? = some it2 →
          it2.id.isSome = true ∧ it2.fieldData.isSome = true := by
        intro m hm it2 h2
        exact hprev (m + 1) (by omega) it2 (by rw [List.getElem?_cons_succ]; exact h2)
      have hrec := ih (i + 1) j (by rw [List.getElem?_cons_succ] at hj; exact hj) hprev2
      rw [hrec]
      have harith : i + 1 + j = i + (j + 1) := by omega
      rw [harith]

theorem validateUpdate_first_fd (items : List Item) (i j : Nat) (it : Item)
    (hj : items[j]? = some it)
    (hprev : ∀ m, m < j → ∀ it2, items[m]? = some it2 →
      it2.id.isSome = true ∧ it2.fieldData.isSome = true)
    (hid : it.id.isNone = false) (hfd : it.fieldData.isNone = true) :
    validateUpdateItems i items =
      some { success := false,
             error := some ("Item " ++ it.id.getD ""
               ++ " missing required fieldData field") } := by
  induction items generalizing i j with
  | nil => simp at hj
  | cons x rest ih =>
    cases j with
    | zero =>
      rw [List.getElem?_cons_zero] at hj
      have hx := Option.some.inj hj
      subst hx
      unfold validateUpdateItems
      rw [if_neg (by rw [hid]; exact Bool.false_ne_true), if_pos hfd]
    | succ j =>
      have hx := hprev 0 (by omega) x (by rw [List.getElem?_cons_zero])
      have hx1 : x.id.isNone = false := isNone_eq_false_of_isSome _ hx.1
      have hx2 : x.fieldData.isNone = false := isNone_eq_false_of_isSome _ hx.2
      unfold validateUpdateItems
      rw [if_neg (by rw [hx1]; exact Bool.false_ne_true), if_neg (by rw [hx2]; exact Bool.false_ne_true)]
      have hprev2 : ∀ m, m < j → ∀ it2, rest[m]? = some it2 →
          it2.id.isSome = true ∧ it2.fieldData.isSome = true := by
        intro m hm it2 h2
        exact hprev (m + 1) (by omega) it2 (by rw [List.getElem?_cons_succ]; exact h2)
      exact ih (i + 1) j (by rw [List.getElem?_cons_succ] at hj; exact hj) hprev2

theorem validateCreate_none (items : List Item) (i : Nat)
    (h : ∀ it ∈ items, it.fieldData.isSome = true) :
    validateCreateItems i items = none := by
  induction items generalizing i with
  | nil => rfl
  | cons it rest ih =>
    have h1 : it.fieldData.isNone = false :=
      isNone_eq_false_of_isSome _ (h it (List.mem_cons_self _ _))
    unfold validateCreateItems
    rw [if_neg (by rw [h1]; exact Bool.false_ne_true)]
    exact ih (i + 1) (fun it2 h2 => h it2 (List.mem_cons_of_mem _ h2))

/-- C2 (amended): update synchronization validates item-by-item in original
order before any network call — every item must carry an `id` entry
(possibly empty) and a `fieldData` entry; the first violating item
short-circuits the whole call, returning a single-element outcome holding
exactly one failure that names the offending item and its missing field,
with zero upstream requests issued. -/
theorem C2_structural_validation (hasToken : Bool) (net : Nat → NetResult) (cid : String)
    (items : List Item) (e : ApiResult)
    (hv : validateUpdateItems 0 items = some e) :
    update_collection_items hasToken net cid items = ([e], []) ∧
    e.success = false ∧
    (∀ (j : Nat) (it : Item), items[j]? = some it →
      (∀ (m : Nat), m < j → ∀ (it2 : Item), items[m]? = some it2 →
        it2.id.isSome = true ∧ it2.fieldData.isSome = true) →
      (it.id.isNone = true →
        e.error = some ("Item " ++ toString j ++ " missing required id field")) ∧
      (it.id.isNone = false → it.fieldData.isNone = true →
        e.error = some ("Item " ++ it.id.getD ""
          ++ " missing required fieldData field"))) := by
  refine ⟨?_, validateUpdate_some_success items 0 e hv, ?_⟩
  · unfold update_collection_items
    rw [hv]
  · intro j it hj hprev
    constructor
    · intro hid
      have h2 := validateUpdate_first_id items 0 j it hj hprev hid
      rw [hv] at h2
      have h3 := Option.some.inj h2
      rw [h3]
      rw [Nat.zero_add]
    · intro hid hfd
      have h2 := validateUpdate_first_fd items 0 j it hj hprev hid hfd
      rw [hv] at h2
      have h3 := Option.some.inj h2
      rw [h3]

theorem C2_structural_validation_witness :
    validateUpdateItems 0
      [{ id := some "a", fieldData := some [("x", Value.str "v")] },
       { id := none, fieldData := some [("y", Value.str "w")] }] =
      some { success := false,
             error := some ("Item " ++ toString 1 ++ " missing required id field") } ∧
    update_collection_items true (fun _ => NetResult.timeout) "c"
      [{ id := some "a", fieldData := some [("x", Value.str "v")] },
       { id := none, fieldData := some [("y", Value.str "w")] }] =
      ([{ success := false,
          error := some ("Item " ++ toString 1 ++ " missing required id field") }], []) ∧
    ({ success := false,
       error := some ("Item " ++ toString 1 ++ " missing required id field") }
       : ApiResult).success = false :=
  ⟨rfl,
   (C2_structural_validation true (fun _ => NetResult.timeout) "c"
      [{ id := some "a", fieldData := some [("x", Value.str "v")] },
       { id := none, fieldData := some [("y", Value.str "w")] }]
      { success := false,
        error := some ("Item " ++ toString 1 ++ " missing required id field") } rfl).1,
   (C2_structural_validation true (fun _ => NetResult.timeout) "c"
      [{ id := some "a", fieldData := some [("x", Value.str "v")] },
       { id := none, fieldData := some [("y", Value.str "w")] }]
      { success := false,
        error := some ("Item " ++ toString 1 ++ " missing required id field") } rfl).2.1⟩

/-- C2 counterexample: an item carrying an empty-string `id` violates the
claim's "non-empty id" requirement, yet validation passes (the code only
checks key presence), one upstream request is issued, and the outcome is
the upstream result rather than a single validation failure. -/
theorem C2_counterexample :
    validateUpdateItems 0
      [{ id := some "", fieldData := some [("x", Value.str "v")] }] = none ∧
    ((update_collection_items true (fun _ => NetResult.response ⟨200, [], "\x7b\x7d"⟩) "c"
        [{ id := some "", fieldData := some [("x", Value.str "v")] }]).2).length = 1 ∧
    (update_collection_items true (fun _ => NetResult.response ⟨200, [], "\x7b\x7d"⟩) "c"
        [{ id := some "", fieldData := some [("x", Value.str "v")] }]).1 =
      [{ success := true, data := some (Value.obj []) }] :=
  ⟨rfl, rfl, rfl⟩

/-- C9: a create call in which every item's field data cleans to the empty
mapping produces an empty outcome — zero chunk results, zero upstream
requests — and the route handler's derived view of that outcome is
overall success with 0/0 counts. -/
theorem C9_all_clean_empty (hasToken : Bool) (net : Nat → NetResult) (cid : String)
    (items : List Item)
    (h : ∀ it ∈ items, ∃ fd, it.fieldData = some fd ∧ clean_field_data fd = []) :
    create_collection_items hasToken net cid items = ([], []) ∧
    successful_batches (create_collection_items hasToken net cid items).1 = [] ∧
    failed_batches (create_collection_items hasToken net cid items).1 = [] ∧
    successful_chunks (create_collection_items hasToken net cid items).1 = 0 ∧
    batchCallSucceeded (create_collection_items hasToken net cid items).1 = true := by
  have hval : validateCreateItems 0 items = none := by
    apply validateCreate_none
    intro it hit
    obtain ⟨fd, hfd, _⟩ := h it hit
    rw [hfd]
    rfl
  have hclean : cleanCreateItems items = [] := by
    unfold cleanCreateItems
    rw [List.filterMap_eq_nil_iff]
    intro it hit
    obtain ⟨fd, hfd, hc⟩ := h it hit
    simp [hfd, hc]
  have hmain : create_collection_items hasToken net cid items = ([], []) := by
    unfold create_collection_items
    rw [hval, hclean]
    rfl
  rw [hmain]
  exact ⟨rfl, rfl, rfl, rfl, rfl⟩

theorem C9_all_clean_empty_witness :
    create_collection_items true (fun _ => NetResult.timeout) "c"
      [{ id := none, fieldData := some [("x", Value.str "null")] }] = ([], []) ∧
    batchCallSucceeded (create_collection_items true (fun _ => NetResult.timeout) "c"
      [{ id := none, fieldData := some [("x", Value.str "null")] }]).1 = true := by
  have hh : ∀ it ∈ ([{ id := none, fieldData := some [("x", Value.str "null")] }] : List Item),
      ∃ fd, it.fieldData = some fd ∧ clean_field_data fd = [] := by
    intro it hit
    rw [List.mem_singleton] at hit
    subst hit
    exact ⟨[("x", Value.str "null")], rfl, rfl⟩
  exact ⟨(C9_all_clean_empty true (fun _ => NetResult.timeout) "c" _ hh).1,
         (C9_all_clean_empty true (fun _ => NetResult.timeout) "c" _ hh).2.2.2.2⟩

theorem flatten_map_cleanUpdateChunk (chunks : List (List Item)) :
    (chunks.map cleanUpdateChunk).flatten = cleanUpdateChunk chunks.flatten := by
  induction chunks with
  | nil => rfl
  | cons c rest ih =>
    rw [List.map_cons, List.flatten_cons, List.flatten_cons, ih]
    unfold cleanUpdateChunk
    rw [List.filterMap_append]

/-- C1 (amended): for Create, the cleaned items are partitioned into chunks
of at most 100 in original order — ceil(N/100) chunks whose concatenation
is exactly the cleaned sequence, chunk k holding cleaned items
[100k, 100k+100) — and the outbound request bodies are exactly those
chunks.  For Update, the partition into chunks of at most 100 is applied
to the raw validated items (chunk k = raw items [100k, 100k+100)), each
chunk is cleaned after splitting, one result is produced per raw chunk
(ceil(M/100) results for M raw items), and concatenating the per-chunk
cleaned sequences reproduces the cleaned sequence. -/
theorem C1_chunking (hasToken : Bool) (net : Nat → NetResult) (cid : String)
    (citems uitems : List Item)
    (hvc : validateCreateItems 0 citems = none)
    (hvu : validateUpdateItems 0 uitems = none) :
    ((create_collection_items hasToken net cid citems).2).map Request.data =
      (chunksOf 100 (cleanCreateItems citems)).map (fun c => itemsPayload false c) ∧
    (chunksOf 100 (cleanCreateItems citems)).length =
      ((cleanCreateItems citems).length + 99) / 100 ∧
    (chunksOf 100 (cleanCreateItems citems)).flatten = cleanCreateItems citems ∧
    (∀ c ∈ chunksOf 100 (cleanCreateItems citems), c.length ≤ 100) ∧
    (∀ k, 100 * k < (cleanCreateItems citems).length →
      (chunksOf 100 (cleanCreateItems citems))[k]? =
        some (((cleanCreateItems citems).drop (100 * k)).take 100)) ∧
    ((update_collection_items hasToken net cid uitems).1).length =
      (uitems.length + 99) / 100 ∧
    ((chunksOf 100 uitems).map cleanUpdateChunk).flatten = cleanUpdateChunk uitems ∧
    (∀ c ∈ chunksOf 100 uitems, c.length ≤ 100) ∧
    (∀ k, 100 * k < uitems.length →
      (chunksOf 100 uitems)[k]? = some ((uitems.drop (100 * k)).take 100)) := by
  refine ⟨?_, chunksOf_length _, chunksOf_flatten _,
    fun c hc => chunksOf_size_le _ c hc, fun k hk => chunksOf_getElem _ k hk,
    ?_, ?_, fun c hc => chunksOf_size_le _ c hc, fun k hk => chunksOf_getElem _ k hk⟩
  · unfold create_collection_items
    rw [hvc, createLoop_snd, List.map_map]
    rfl
  · unfold update_collection_items
    rw [hvu, updateLoop_fst_length]
    exact chunksOf_length _
  · rw [flatten_map_cleanUpdateChunk, chunksOf_flatten]

theorem C1_chunking_witness :
    validateCreateItems 0 [{ id := none, fieldData := some [("x", Value.str "v")] }] = none ∧
    validateUpdateItems 0 [{ id := some "a", fieldData := some [("x", Value.str "v")] }] = none ∧
    (chunksOf 100 (cleanCreateItems
        [{ id := none, fieldData := some [("x", Value.str "v")] }])).flatten =
      cleanCreateItems [{ id := none, fieldData := some [("x", Value.str "v")] }] ∧
    ((update_collection_items true (fun _ => NetResult.timeout) "c"
        [{ id := some "a", fieldData := some [("x", Value.str "v")] }]).1).length =
      (([{ id := some "a", fieldData := some [("x", Value.str "v")] }] : List Item).length
        + 99) / 100 :=
  ⟨rfl, rfl,
   (C1_chunking true (fun _ => NetResult.timeout) "c"
      [{ id := none, fieldData := some [("x", Value.str "v")] }]
      [{ id := some "a", fieldData := some [("x", Value.str "v")] }] rfl rfl).2.2.1,
   (C1_chunking true (fun _ => NetResult.timeout) "c"
      [{ id := none, fieldData := some [("x", Value.str "v")] }]
      [{ id := some "a", fieldData := some [("x", Value.str "v")] }] rfl rfl).2.2.2.2.2.1⟩

/-- C1 counterexample: 101 update items of which the first cleans to empty.
The cleaned sequence has N = 100 items, so the claim predicts
ceil(100/100) = 1 chunk, but the code splits the raw list first and
issues 2 upstream requests, returning 2 results. -/
theorem C1_counterexample :
    (cleanUpdateChunk
        ({ id := some "a", fieldData := some [("x", Value.str "null")] } ::
          List.replicate 100
            ({ id := some "a", fieldData := some [("x", Value.str "v")] } : Item))).length
      = 100 ∧
    (((cleanUpdateChunk
        ({ id := some "a", fieldData := some [("x", Value.str "null")] } ::
          List.replicate 100
            ({ id := some "a", fieldData := some [("x", Value.str "v")] } : Item))).length
        + 99) / 100) = 1 ∧
    ((update_collection_items true (fun _ => NetResult.response ⟨200, [], "\x7b\x7d"⟩) "c"
        ({ id := some "a", fieldData := some [("x", Value.str "null")] } ::
          List.replicate 100
            ({ id := some "a", fieldData := some [("x", Value.str "v")] } : Item))).2).length
      = 2 ∧
    ((update_collection_items true (fun _ => NetResult.response ⟨200, [], "\x7b\x7d"⟩) "c"
        ({ id := some "a", fieldData := some [("x", Value.str "null")] } ::
          List.replicate 100
            ({ id := some "a", fieldData := some [("x", Value.str "v")] } : Item))).1).length
      = 2 := by
  exact ⟨by decide, by decide, by decide, by decide⟩

/-- C3: no early abort — for a validated synchronize call the outcome has
exactly one result per chunk, in chunk order; the j-th result is fully
determined by the j-th chunk and the network oracle (never by an earlier
chunk's failure), and the derived success/failure counts partition the
outcome. -/
theorem C3_no_early_abort (hasToken : Bool) (net : Nat → NetResult) (cid : String)
    (uitems citems : List Item)
    (hvu : validateUpdateItems 0 uitems = none)
    (hvc : validateCreateItems 0 citems = none) :
    ((update_collection_items hasToken net cid uitems).1).length =
      (chunksOf 100 uitems).length ∧
    (∀ j, ((update_collection_items hasToken net cid uitems).1)[j]? =
      ((chunksOf 100 uitems)[j]?).map (fun chunk =>
        if (cleanUpdateChunk chunk).isEmpty then
          { success := true, message := some "No valid items to update in chunk" }
        else
          _make_request hasToken "PATCH" ("/collections/" ++ cid ++ "/items")
            (some (itemsPayload true (cleanUpdateChunk chunk)))
            (net (dispatchedBefore (chunksOf 100 uitems) j)))) ∧
    (successful_batches ((update_collection_items hasToken net cid uitems).1)).length +
      (failed_batches ((update_collection_items hasToken net cid uitems).1)).length =
      ((update_collection_items hasToken net cid uitems).1).length ∧
    ((create_collection_items hasToken net cid citems).1).length =
      (chunksOf 100 (cleanCreateItems citems)).length ∧
    (∀ j, ((create_collection_items hasToken net cid citems).1)[j]? =
      ((chunksOf 100 (cleanCreateItems citems))[j]?).map (fun chunk =>
        _make_request hasToken "POST" ("/collections/" ++ cid ++ "/items")
          (some (itemsPayload false chunk)) (net j))) ∧
    (successful_batches ((create_collection_items hasToken net cid citems).1)).length +
      (failed_batches ((create_collection_items hasToken net cid citems).1)).length =
      ((create_collection_items hasToken net cid citems).1).length := by
  have hu : update_collection_items hasToken net cid uitems =
      updateLoop hasToken net cid (chunksOf 100 uitems) 0 := by
    unfold update_collection_items
    rw [hvu]
  have hc2 : create_collection_items hasToken net cid citems =
      createLoop hasToken net cid (chunksOf 100 (cleanCreateItems citems)) 0 := by
    unfold create_collection_items
    rw [hvc]
  refine ⟨?_, ?_, ?_, ?_, ?_, ?_⟩
  · rw [hu, updateLoop_fst_length]
  · intro j
    rw [hu, updateLoop_fst_getElem, Nat.zero_add]
  · simp only [successful_batches, failed_batches]
    exact length_filter_add _ _
  · rw [hc2, createLoop_fst_length]
  · intro j
    rw [hc2, createLoop_fst_getElem, Nat.zero_add]
  · simp only [successful_batches, failed_batches]
    exact length_filter_add _ _

set_option maxRecDepth 100000 in
theorem C3_no_early_abort_witness :
    validateUpdateItems 0 (List.replicate 201
      ({ id := some "a", fieldData := some [("x", Value.str "v")] } : Item)) = none ∧
    ((update_collection_items true
        (fun k => if k == 1 then NetResult.response ⟨429, [], ""⟩
                  else NetResult.response ⟨200, [], "\x7b\x7d"⟩) "c"
        (List.replicate 201
          ({ id := some "a", fieldData := some [("x", Value.str "v")] } : Item))).1).length =
      (chunksOf 100 (List.replicate 201
        ({ id := some "a", fieldData := some [("x", Value.str "v")] } : Item))).length ∧
    ((update_collection_items true
        (fun k => if k == 1 then NetResult.response ⟨429, [], ""⟩
                  else NetResult.response ⟨200, [], "\x7b\x7d"⟩) "c"
        (List.replicate 201
          ({ id := some "a", fieldData := some [("x", Value.str "v")] } : Item))).1).length = 3 ∧
    successful_chunks ((update_collection_items true
        (fun k => if k == 1 then NetResult.response ⟨429, [], ""⟩
                  else NetResult.response ⟨200, [], "\x7b\x7d"⟩) "c"
        (List.replicate 201
          ({ id := some "a", fieldData := some [("x", Value.str "v")] } : Item))).1) = 2 ∧
    (failed_batches ((update_collection_items true
        (fun k => if k == 1 then NetResult.response ⟨429, [], ""⟩
                  else NetResult.response ⟨200, [], "\x7b\x7d"⟩) "c"
        (List.replicate 201
          ({ id := some "a", fieldData := some [("x", Value.str "v")] } : Item))).1)).length = 1 :=
  ⟨rfl,
   (C3_no_early_abort true
      (fun k => if k == 1 then NetResult.response ⟨429, [], ""⟩
                else NetResult.response ⟨200, [], "\x7b\x7d"⟩) "c"
      (List.replicate 201
        ({ id := some "a", fieldData := some [("x", Value.str "v")] } : Item))
      [{ id := none, fieldData := some [("x", Value.str "v")] }] rfl rfl).1,
   by decide, by decide, by decide⟩
